import Mathlib

/-!
Verification development for the client-side music application
(`script.js`).  The definitions below are a shallow embedding of the
metadata store, the auth and social mutators, and the playback engine of
the source file.  Machine integers of the source are modelled as `Nat`
(all counters and timestamps are non-negative and never overflow in the
modelled operations), JavaScript arrays as `List`, and JavaScript plain
objects used as maps as association lists with first-match lookup.
-/

set_option maxRecDepth 10000

/-- User record, mirroring the object literals built in `registerUser` and
`ensureSuperAdmin` (script.js lines 139-154 and 228-236). -/
structure User where
  id : Nat
  username : String
  password : String
  displayName : String
  bio : String
  verified : Bool
  superAdmin : Bool
  imageAssetId : Option String
  createdAt : Nat
deriving Repr, DecidableEq

/-- Song record, mirroring the object literals pushed in
`createSampleAssetsIfEmpty` and the upload handler. -/
structure Song where
  id : String
  title : String
  artist : String
  albumId : String
  duration : Nat
  assetId : String
  coverAssetId : String
  genre : String
  language : String
  explicit : Bool
  uploadedBy : String
deriving Repr, DecidableEq

/-- Album record of the metadata document. -/
structure Album where
  id : String
  title : String
  artist : String
  year : Nat
  coverAssetId : String
  tracks : List String
deriving Repr, DecidableEq

/-- Playlist record of the metadata document.  The source field named
`private` is rendered here as `isPrivate` because `private` is a Lean
keyword. -/
structure Playlist where
  id : String
  name : String
  owner : String
  tracks : List String
  coverAssetId : Option String
  isPrivate : Bool
  sharedWith : List String
  createdAt : Nat
deriving Repr, DecidableEq

/-- The `nextIds` counter object of the metadata document. -/
structure NextIds where
  song : Nat
  album : Nat
  playlist : Nat
  user : Nat
deriving Repr, DecidableEq

/-- Fully-populated metadata document, the in-memory shape assumed by the
mutators and the player once every collection is present. -/
structure Meta where
  users : List User
  songs : List Song
  albums : List Album
  playlists : List Playlist
  likes : List (String × List String)
  followers : List (String × List String)
  recentlyPlayed : List String
  nextIds : NextIds
deriving Repr, DecidableEq

/-- A parsed metadata document as it may come out of storage: any
top-level collection may be absent (`none`), which models a well-typed
JSON document that simply lacks that key. -/
structure PartialMeta where
  users : Option (List User)
  songs : Option (List Song)
  albums : Option (List Album)
  playlists : Option (List Playlist)
  likes : Option (List (String × List String))
  followers : Option (List (String × List String))
  recentlyPlayed : Option (List String)
  nextIds : Option NextIds
deriving Repr, DecidableEq

/-- State of the persisted metadata slot (`localStorage` under
`META_KEY`): the key can be absent, hold a string that fails to read or
parse (this constructor also covers a storage read that throws), or hold
a parseable document. -/
inductive Stored where
  | missing : Stored
  | malformed : Stored
  | doc : PartialMeta → Stored
deriving Repr, DecidableEq

/-- Embedding of `defaultMeta` (script.js lines 93-104): every collection
present and empty, counters seeded to 1. -/
def defaultMeta : PartialMeta :=
  { users := some []
    songs := some []
    albums := some []
    playlists := some []
    likes := some []
    followers := some []
    recentlyPlayed := some []
    nextIds := some { song := 1, album := 1, playlist := 1, user := 1 } }

/-- Embedding of `loadMeta` (script.js lines 68-87).  The second
component records whether `saveMeta` was called during the load.  On a
missing key the default document is returned without saving; on a read
or parse failure the default is saved and returned; on a parsed document
the migration block fills in `users`, `songs`, `playlists`, `albums`,
`likes` and `followers` when absent and touches nothing else. -/
def loadMeta : Stored → PartialMeta × Bool
  | Stored.missing => (defaultMeta, false)
  | Stored.malformed => (defaultMeta, true)
  | Stored.doc p =>
      ({ p with
          users := some (p.users.getD [])
          songs := some (p.songs.getD [])
          playlists := some (p.playlists.getD [])
          albums := some (p.albums.getD [])
          likes := some (p.likes.getD [])
          followers := some (p.followers.getD []) }, false)

/-- Decidable check that every top-level collection of a metadata
document is present. -/
def allPresent (p : PartialMeta) : Bool :=
  p.users.isSome && p.songs.isSome && p.albums.isSome && p.playlists.isSome
    && p.likes.isSome && p.followers.isSome && p.recentlyPlayed.isSome
    && p.nextIds.isSome

/-- A parsed document with no top-level collections at all (for example
the stored string `"{}"`). -/
def emptyPartial : PartialMeta :=
  { users := none, songs := none, albums := none, playlists := none
    likes := none, followers := none, recentlyPlayed := none, nextIds := none }

/-- Result of an auth mutator, mirroring the `{ok:true,user}` /
`{ok:false,msg}` objects returned by `registerUser` and `loginUser`. -/
inductive AuthResult where
  | okUser : User → AuthResult
  | err : String → AuthResult
deriving Repr, DecidableEq

/-- Embedding of `registerUser` (script.js lines 228-236).  `now` stands
for `Date.now()`.  The third component records whether `saveMeta` was
called.  A falsy (empty) display name falls back to the username, as the
source expression `displayName||username` does. -/
def registerUser (username password displayName : String) (now : Nat)
    (m : Meta) : Meta × AuthResult × Bool :=
  match m.users.find? (fun u => u.username == username) with
  | some _ => (m, AuthResult.err "Username exists", false)
  | none =>
      let id := m.nextIds.user
      let user : User :=
        { id := id, username := username, password := password
          displayName := if displayName == "" then username else displayName
          bio := "", verified := false, superAdmin := false
          imageAssetId := none, createdAt := now }
      ({ m with users := m.users ++ [user]
                nextIds := { m.nextIds with user := id + 1 } },
       AuthResult.okUser user, true)

/-- Session state visible to the auth and social mutators: the metadata
document plus the in-memory current user (`state.currentUser`). -/
structure AuthState where
  meta : Meta
  currentUser : Option User
deriving Repr, DecidableEq

/-- Embedding of `loginUser` (script.js lines 238-246): the first user
whose stored username and password both equal the supplied strings is
made the current-session user; otherwise the state is untouched and an
invalid-credentials result is returned. -/
def loginUser (username password : String) (st : AuthState) :
    AuthState × AuthResult :=
  match st.meta.users.find?
      (fun u => u.username == username && u.password == password) with
  | none => (st, AuthResult.err "Invalid credentials")
  | some u => ({ st with currentUser := some u }, AuthResult.okUser u)

/-- Lookup in a JavaScript-object-as-map modelled as an association
list: the value of the first entry with the given key, if any. -/
def lookupEntry (l : List (String × List String)) (k : String) :
    Option (List String) :=
  (l.find? (fun e => e.1 == k)).map (fun e => e.2)

/-- Assignment `obj[k] = v` on a JavaScript-object-as-map: replace the
entry when the key is present, append a new entry otherwise. -/
def setEntry (l : List (String × List String)) (k : String)
    (v : List String) : List (String × List String) :=
  if l.any (fun e => e.1 == k) then
    l.map (fun e => if e.1 == k then (k, v) else e)
  else l ++ [(k, v)]

/-- Follower list of a target username, with an absent entry read as the
empty list (the `m.followers[target] || []` idiom of the source). -/
def followersOf (m : Meta) (target : String) : List String :=
  (lookupEntry m.followers target).getD []

/-- Embedding of `followUser` (script.js lines 254-261): requires a
current user; ensures an entry for the target and appends the current
username to it unless already present; persists.  The ensure-then-push
sequence of the source is expressed as one read-modify-write on the
entry, which yields the same document. -/
def followUser (target : String) (st : AuthState) : AuthState :=
  match st.currentUser with
  | none => st
  | some cu =>
      let arr := followersOf st.meta target
      let arr2 := if cu.username ∈ arr then arr else arr ++ [cu.username]
      { st with meta :=
          { st.meta with followers := setEntry st.meta.followers target arr2 } }

/-- Embedding of `unfollowUser` (script.js lines 263-271): requires a
current user; removes the first occurrence of the current username from
the target entry (reading an absent entry as empty), writes the entry
back, persists.  `splice` at the first `indexOf` is `List.erase`. -/
def unfollowUser (target : String) (st : AuthState) : AuthState :=
  match st.currentUser with
  | none => st
  | some cu =>
      let arr := followersOf st.meta target
      { st with meta :=
          { st.meta with
              followers := setEntry st.meta.followers target
                (arr.erase cu.username) } }

/-- The super-admin user literal built by `ensureSuperAdmin`
(script.js lines 144-149); `id` is the consumed user counter and `now`
stands for `Date.now()`. -/
def superAdminUser (id now : Nat) : User :=
  { id := id, username := "RankRates", password := "Rank1250"
    displayName := "RankRates", bio := "Super admin"
    verified := true, superAdmin := true
    imageAssetId := none, createdAt := now }

/-- Embedding of `ensureSuperAdmin` (script.js lines 139-154): when no
user named RankRates exists, push the super-admin literal (consuming the
user id counter) and persist; otherwise do nothing.  The second
component records whether `saveMeta` was called. -/
def ensureSuperAdmin (now : Nat) (m : Meta) : Meta × Bool :=
  match m.users.find? (fun u => u.username == "RankRates") with
  | some _ => (m, false)
  | none =>
      ({ m with users := m.users ++ [superAdminUser m.nextIds.user now]
                nextIds := { m.nextIds with user := m.nextIds.user + 1 } },
       true)

/-- Playback engine state (`state.player`), restricted to the fields the
playback claims speak about; the DOM audio element and the seek guard
are external resources outside this embedding. -/
structure PlayerState where
  queue : List String
  index : Nat
  playing : Bool
  currentSongId : Option String
deriving Repr, DecidableEq

/-- Combined application state for the playback engine: the metadata
document and the player. -/
structure AppState where
  meta : Meta
  player : PlayerState
deriving Repr, DecidableEq

/-- Outcome of a `playSong`, `playNext` or `playPrev` call: success, one
of the signalled failures (Song missing toast, Audio blob missing toast,
Playback error toast), or the silent no-op of `playNext` and `playPrev`
on an empty queue. -/
inductive PlayResult where
  | ok : PlayResult
  | songMissing : PlayResult
  | blobMissing : PlayResult
  | playbackError : PlayResult
  | noop : PlayResult
deriving Repr, DecidableEq

/-- Order-preserving deduplication keeping the first occurrence of each
element, the semantics of `Array.from(new Set(rp))`; `seen` accumulates
the elements already emitted. -/
def dedupFirstAux (seen : List String) : List String → List String
  | [] => []
  | x :: xs =>
      if x ∈ seen then dedupFirstAux seen xs
      else x :: dedupFirstAux (x :: seen) xs

/-- Deduplication of a list keeping first occurrences, as
`Array.from(new Set(...))` does in the source. -/
def dedupFirst (l : List String) : List String := dedupFirstAux [] l

/-- Embedding of `playSong` (script.js lines 347-373).  `blobs` is the
set of asset ids present in the blob store (the only fact `idbGet` needs
to report for these claims), and `playOk` models whether the hardware
`audio.play()` call succeeds.  On the success path the source sets
`playing`, `currentSongId`, replaces the queue when a context queue is
given, recomputes `index` as `queue.indexOf(songId)` clamped to 0 when
absent, then rewrites `recentlyPlayed` by unshift, pop-while-over-50 and
set-deduplication, and persists.  The third component records whether
`saveMeta` was called. -/
def playSong (blobs : List String) (songId : String)
    (contextQueue : Option (List String)) (playOk : Bool)
    (st : AppState) : AppState × PlayResult × Bool :=
  match st.meta.songs.find? (fun s => s.id == songId) with
  | none => (st, PlayResult.songMissing, false)
  | some song =>
      if song.assetId ∈ blobs then
        if playOk then
          let q := match contextQueue with
            | some cq => cq
            | none => st.player.queue
          let i := if songId ∈ q then q.indexOf songId else 0
          let rp := dedupFirst (List.take 50 (songId :: st.meta.recentlyPlayed))
          ({ meta := { st.meta with recentlyPlayed := rp }
             player := { st.player with
                playing := true, currentSongId := some songId
                queue := q, index := i } },
           PlayResult.ok, true)
        else (st, PlayResult.playbackError, false)
      else (st, PlayResult.blobMissing, false)

/-- Embedding of `playNext` (script.js lines 401-408): no-op on an empty
queue, otherwise advance the cursor modulo the queue length and play the
song at the new cursor with the existing queue. -/
def playNext (blobs : List String) (playOk : Bool) (st : AppState) :
    AppState × PlayResult × Bool :=
  let q := st.player.queue
  if q.length = 0 then (st, PlayResult.noop, false)
  else
    let idx := (st.player.index + 1) % q.length
    playSong blobs (q.getD idx "") (some q) playOk
      { st with player := { st.player with index := idx } }

/-- Embedding of `playPrev` (script.js lines 410-417): no-op on an empty
queue, otherwise retreat the cursor modulo the queue length and play the
song at the new cursor with the existing queue. -/
def playPrev (blobs : List String) (playOk : Bool) (st : AppState) :
    AppState × PlayResult × Bool :=
  let q := st.player.queue
  if q.length = 0 then (st, PlayResult.noop, false)
  else
    let idx := (st.player.index + q.length - 1) % q.length
    playSong blobs (q.getD idx "") (some q) playOk
      { st with player := { st.player with index := idx } }

/-- One `playSong` invocation in a call sequence: the requested song id,
the optional context queue, and whether hardware playback succeeds. -/
structure PlayCall where
  songId : String
  ctx : Option (List String)
  playOk : Bool
deriving Repr, DecidableEq

/-- Run a sequence of `playSong` calls against a fixed blob store,
threading the application state. -/
def runCalls (blobs : List String) (st : AppState) :
    List PlayCall → AppState
  | [] => st
  | c :: cs =>
      runCalls blobs (playSong blobs c.songId c.ctx c.playOk st).1 cs

/-- The RecentlyPlayed invariant claimed by the specification: at most
50 entries and no duplicate ids. -/
def rpInv (rp : List String) : Prop := rp.length ≤ 50 ∧ rp.Nodup

instance (rp : List String) : Decidable (rpInv rp) := by
  unfold rpInv; infer_instance

/-- Modelled from the spec: the RecentlyPlayed update order the
specification describes in section 4.4 — prepend, dedupe, cap at 50 —
to be compared against the order the source actually performs. -/
def rpUpdateSpec (songId : String) (rp : List String) : List String :=
  List.take 50 (dedupFirst (songId :: rp))

/-- A metadata document with every collection empty and counters seeded
as in `defaultMeta`; the in-memory shape of a fresh install. -/
def emptyMeta : Meta :=
  { users := [], songs := [], albums := [], playlists := []
    likes := [], followers := [], recentlyPlayed := []
    nextIds := { song := 1, album := 1, playlist := 1, user := 1 } }

/-- A concrete song used by the playback examples: id `"0"`, audio asset
`"a0"`. -/
def cexSong : Song :=
  { id := "0", title := "Demo Track", artist := "alice", albumId := "album_1"
    duration := 3, assetId := "a0", coverAssetId := "c1", genre := "Electronic"
    language := "English", explicit := false, uploadedBy := "alice" }

/-- Fifty pairwise-distinct song ids: the decimal numerals 0 to 49. -/
def rp50 : List String := (List.range 50).map (fun n => toString n)

/-- A concrete application state whose RecentlyPlayed list is full (50
distinct entries, the first of which is the id of the one stored song)
and whose player is idle with an empty queue. -/
def rpCexState : AppState :=
  { meta := { emptyMeta with songs := [cexSong], recentlyPlayed := rp50 }
    player := { queue := [], index := 0, playing := false, currentSongId := none } }

/-- A concrete registered user with a mixed-case username. -/
def bobUser : User :=
  { id := 1, username := "Bob", password := "pw", displayName := "Bob"
    bio := "", verified := false, superAdmin := false
    imageAssetId := none, createdAt := 0 }

/-- A session whose metadata holds exactly the user `Bob` and in which
nobody is signed in. -/
def bobState : AuthState :=
  { meta := { emptyMeta with users := [bobUser] }, currentUser := none }

/-- A session in which `Bob` is signed in over an empty follower map. -/
def followState : AuthState :=
  { meta := emptyMeta, currentUser := some bobUser }

/-- A user named RankRates that is neither verified nor a super admin,
as an adversarial persisted document could contain. -/
def fakeRank : User :=
  { id := 1, username := "RankRates", password := "hunter2"
    displayName := "imposter", bio := "", verified := false
    superAdmin := false, imageAssetId := none, createdAt := 0 }

/-- A metadata document already containing the non-admin RankRates
user. -/
def fakeMeta : Meta := { emptyMeta with users := [fakeRank] }

/-! Helper lemmas. -/

theorem not_mem_dedupFirstAux_of_mem_seen {a : String} (l : List String) :
    ∀ seen, a ∈ seen → a ∉ dedupFirstAux seen l := by
  induction l with
  | nil => intro seen _ h; simp [dedupFirstAux] at h
  | cons x xs ih =>
      intro seen ha
      by_cases hx : x ∈ seen
      · simpa [dedupFirstAux, hx] using ih seen ha
      · simp only [dedupFirstAux, if_neg hx, List.mem_cons, not_or]
        exact ⟨fun h => hx (h ▸ ha), ih (x :: seen) (List.mem_cons_of_mem _ ha)⟩

theorem nodup_dedupFirstAux (l : List String) :
    ∀ seen, (dedupFirstAux seen l).Nodup := by
  induction l with
  | nil => intro seen; simp [dedupFirstAux]
  | cons x xs ih =>
      intro seen
      by_cases hx : x ∈ seen
      · simpa [dedupFirstAux, hx] using ih seen
      · simp only [dedupFirstAux, if_neg hx]
        exact List.nodup_cons.mpr
          ⟨not_mem_dedupFirstAux_of_mem_seen xs (x :: seen) (List.mem_cons_self x seen),
           ih (x :: seen)⟩

theorem length_dedupFirstAux_le (l : List String) :
    ∀ seen, (dedupFirstAux seen l).length ≤ l.length := by
  induction l with
  | nil => intro seen; simp [dedupFirstAux]
  | cons x xs ih =>
      intro seen
      by_cases hx : x ∈ seen
      · simp only [dedupFirstAux, if_pos hx, List.length_cons]
        exact Nat.le_succ_of_le (ih seen)
      · simp only [dedupFirstAux, if_neg hx, List.length_cons]
        exact Nat.succ_le_succ (ih (x :: seen))

theorem dedupFirst_nodup (l : List String) : (dedupFirst l).Nodup :=
  nodup_dedupFirstAux l []

theorem dedupFirst_length_le (l : List String) :
    (dedupFirst l).length ≤ l.length :=
  length_dedupFirstAux_le l []

theorem dedupFirst_cons (x : String) (xs : List String) :
    dedupFirst (x :: xs) = x :: dedupFirstAux [x] xs := by
  simp [dedupFirst, dedupFirstAux]

theorem playSong_of_find?_eq_none (blobs : List String) (songId : String)
    (ctx : Option (List String)) (playOk : Bool) (st : AppState)
    (h : st.meta.songs.find? (fun s => s.id == songId) = none) :
    playSong blobs songId ctx playOk st = (st, PlayResult.songMissing, false) := by
  unfold playSong; rw [h]

theorem playSong_of_blob_missing (blobs : List String) (songId : String)
    (ctx : Option (List String)) (playOk : Bool) (st : AppState) (song : Song)
    (h : st.meta.songs.find? (fun s => s.id == songId) = some song)
    (hb : song.assetId ∉ blobs) :
    playSong blobs songId ctx playOk st = (st, PlayResult.blobMissing, false) := by
  unfold playSong; rw [h]; simp [hb]

theorem playSong_of_play_failed (blobs : List String) (songId : String)
    (ctx : Option (List String)) (st : AppState) (song : Song)
    (h : st.meta.songs.find? (fun s => s.id == songId) = some song)
    (hb : song.assetId ∈ blobs) :
    playSong blobs songId ctx false st = (st, PlayResult.playbackError, false) := by
  unfold playSong; rw [h]; simp [hb]

theorem playSong_success (blobs : List String) (songId : String)
    (ctx : Option (List String)) (st : AppState) (song : Song)
    (h : st.meta.songs.find? (fun s => s.id == songId) = some song)
    (hb : song.assetId ∈ blobs) :
    playSong blobs songId ctx true st =
      ({ meta := { st.meta with
            recentlyPlayed := dedupFirst (List.take 50 (songId :: st.meta.recentlyPlayed)) }
         player := { st.player with
            playing := true
            currentSongId := some songId
            queue := ctx.getD st.player.queue
            index := if songId ∈ ctx.getD st.player.queue
                        then (ctx.getD st.player.queue).indexOf songId
                        else 0 } },
       PlayResult.ok, true) := by
  unfold playSong; rw [h]; simp only [hb, if_pos, if_true]
  cases ctx <;> rfl

theorem rpInv_dedupFirst_take (l : List String) :
    rpInv (dedupFirst (List.take 50 l)) := by
  constructor
  · exact le_trans (dedupFirst_length_le _)
      (by rw [List.length_take]; exact min_le_left _ _)
  · exact dedupFirst_nodup _

theorem playSong_rpInv (blobs : List String) (songId : String)
    (ctx : Option (List String)) (playOk : Bool) (st : AppState)
    (h : rpInv st.meta.recentlyPlayed) :
    rpInv (playSong blobs songId ctx playOk st).1.meta.recentlyPlayed := by
  cases hfind : st.meta.songs.find? (fun s => s.id == songId) with
  | none => rw [playSong_of_find?_eq_none blobs songId ctx playOk st hfind]; exact h
  | some song =>
      by_cases hb : song.assetId ∈ blobs
      · cases playOk with
        | false => rw [playSong_of_play_failed blobs songId ctx st song hfind hb]; exact h
        | true =>
            rw [playSong_success blobs songId ctx st song hfind hb]
            exact rpInv_dedupFirst_take _
      · rw [playSong_of_blob_missing blobs songId ctx playOk st song hfind hb]; exact h

theorem runCalls_rpInv (blobs : List String) (calls : List PlayCall) :
    ∀ st : AppState, rpInv st.meta.recentlyPlayed →
      rpInv (runCalls blobs st calls).meta.recentlyPlayed := by
  induction calls with
  | nil => intro st h; exact h
  | cons c cs ih =>
      intro st h
      exact ih _ (playSong_rpInv blobs c.songId c.ctx c.playOk st h)

theorem lookupEntry_map_set (k : String) (v : List String)
    (l : List (String × List String))
    (h : l.any (fun e => e.1 == k) = true) :
    lookupEntry (l.map (fun e => if e.1 == k then (k, v) else e)) k = some v := by
  induction l with
  | nil => simp at h
  | cons e l ih =>
      by_cases he : e.1 = k
      · simp [lookupEntry, List.find?, he]
      · have he' : (e.1 == k) = false := beq_eq_false_iff_ne.mpr he
        simp only [List.any_cons, he', Bool.false_or] at h
        simpa [lookupEntry, List.find?, he'] using ih h

theorem lookupEntry_setEntry_self (l : List (String × List String))
    (k : String) (v : List String) :
    lookupEntry (setEntry l k v) k = some v := by
  unfold setEntry
  by_cases h : l.any (fun e => e.1 == k) = true
  · rw [if_pos h]; exact lookupEntry_map_set k v l h
  · rw [if_neg h]
    have hnone : l.find? (fun e => e.1 == k) = none := by
      rw [List.find?_eq_none]
      intro x hx hpx
      exact h (List.any_of_mem hx hpx)
    simp [lookupEntry, List.find?_append, hnone, List.find?]

theorem setEntry_setEntry_self (l : List (String × List String))
    (k : String) (v : List String) :
    setEntry (setEntry l k v) k v = setEntry l k v := by
  unfold setEntry
  by_cases h : l.any (fun e => e.1 == k) = true
  · rw [if_pos h]
    have hany : (l.map (fun e => if e.1 == k then (k, v) else e)).any
        (fun e => e.1 == k) = true := by
      rcases List.any_eq_true.mp h with ⟨e, he, hpe⟩
      refine List.any_of_mem (List.mem_map_of_mem _ he) ?_
      simp [hpe]
    rw [if_pos hany, List.map_map]
    refine List.map_congr_left ?_
    intro e _
    by_cases he : e.1 = k <;> simp [he]
  · rw [if_neg h]
    have hall : ∀ e ∈ l, (e.1 == k) = false := by
      intro e he
      by_contra hc
      exact h (List.any_of_mem he (Bool.of_not_eq_false hc))
    have hany : (l ++ [(k, v)]).any (fun e => e.1 == k) = true := by
      refine List.any_of_mem (List.mem_append_right _ (List.mem_singleton_self _)) ?_
      simp
    have hmapl : l.map (fun e => if e.1 == k then (k, v) else e) = l := by
      conv_rhs => rw [← List.map_id l]
      refine List.map_congr_left ?_
      intro e he
      simp [beq_eq_false_iff_ne.mp (hall e he)]
    rw [if_pos hany, List.map_append, hmapl]
    simp

/-! Claim theorems. -/

/-- C1 (counterexample): loading the parseable document `{}`, which
lacks every collection, yields a document in which `recentlyPlayed` and
`nextIds` are still absent, so not all required top-level collections
are present. -/
theorem loadMeta_doc_missing_fields_cex :
    allPresent (loadMeta (Stored.doc emptyPartial)).1 = false
    ∧ (loadMeta (Stored.doc emptyPartial)).1.recentlyPlayed = none
    ∧ (loadMeta (Stored.doc emptyPartial)).1.nextIds = none := by
  decide

/-- C1 (amended): a corrupted or missing persisted document loads as the
default document, in which every top-level collection is present; a
parseable older document has `users`, `songs`, `albums`, `playlists`,
`likes` and `followers` initialized to empty when absent, while
`recentlyPlayed` and `nextIds` are returned exactly as stored, staying
absent when the stored document lacks them. -/
theorem loadMeta_migration_fields :
    (loadMeta Stored.missing).1 = defaultMeta
    ∧ (loadMeta Stored.malformed).1 = defaultMeta
    ∧ allPresent defaultMeta = true
    ∧ ∀ p : PartialMeta,
        (loadMeta (Stored.doc p)).1.users = some (p.users.getD [])
        ∧ (loadMeta (Stored.doc p)).1.songs = some (p.songs.getD [])
        ∧ (loadMeta (Stored.doc p)).1.albums = some (p.albums.getD [])
        ∧ (loadMeta (Stored.doc p)).1.playlists = some (p.playlists.getD [])
        ∧ (loadMeta (Stored.doc p)).1.likes = some (p.likes.getD [])
        ∧ (loadMeta (Stored.doc p)).1.followers = some (p.followers.getD [])
        ∧ (loadMeta (Stored.doc p)).1.recentlyPlayed = p.recentlyPlayed
        ∧ (loadMeta (Stored.doc p)).1.nextIds = p.nextIds := by
  exact ⟨rfl, rfl, rfl, fun p => ⟨rfl, rfl, rfl, rfl, rfl, rfl, rfl, rfl⟩⟩

/-- C2 (counterexample): when the persisted document is missing (the
storage key is absent), `loadMeta` returns the default document without
calling `saveMeta`, contradicting the claim that the default is
persisted before `loadMeta` returns in that case. -/
theorem loadMeta_missing_no_save_cex :
    ¬ ((loadMeta Stored.missing).2 = true) := by
  decide

/-- C2 (amended): when the persisted document is unreadable or
malformed, `loadMeta` replaces it with the freshly-initialized default
document and persists it via `saveMeta` before returning; when the
document is merely missing, the default document is returned but is not
persisted; loading a parseable document never saves. -/
theorem loadMeta_save_behavior :
    loadMeta Stored.malformed = (defaultMeta, true)
    ∧ loadMeta Stored.missing = (defaultMeta, false)
    ∧ ∀ p : PartialMeta, (loadMeta (Stored.doc p)).2 = false := by
  exact ⟨rfl, rfl, fun _ => rfl⟩

/-- C3 (counterexample): the source performs prepend, cap at 50, then
dedupe — not prepend, dedupe, then cap.  Starting from a full
RecentlyPlayed list of 50 distinct ids and replaying its first id, the
source order first pops the oldest id off the end and only then removes
the duplicate, ending with 49 entries, whereas the claimed order would
keep 50; the resulting lists differ. -/
theorem recentlyPlayed_order_cex :
    (playSong ["a0"] "0" none true rpCexState).1.meta.recentlyPlayed
      ≠ rpUpdateSpec "0" rpCexState.meta.recentlyPlayed := by
  decide

/-- C3 (amended): for every sequence of `playSong` calls starting from a
state whose RecentlyPlayed list satisfies the invariant, the list after
each call never exceeds 50 entries and contains no duplicate ids; every
successful call rewrites it to prepend, cap at 50, dedupe keeping first
occurrences (in that order), then persists, so the played song id is
first afterwards. -/
theorem recentlyPlayed_invariant (blobs : List String) (st : AppState)
    (calls : List PlayCall) (h : rpInv st.meta.recentlyPlayed) :
    rpInv (runCalls blobs st calls).meta.recentlyPlayed
    ∧ ∀ (st2 : AppState) (c : PlayCall),
        (playSong blobs c.songId c.ctx c.playOk st2).2.1 = PlayResult.ok →
          (playSong blobs c.songId c.ctx c.playOk st2).1.meta.recentlyPlayed
            = dedupFirst (List.take 50 (c.songId :: st2.meta.recentlyPlayed))
          ∧ ((playSong blobs c.songId c.ctx c.playOk st2).1.meta.recentlyPlayed).head?
            = some c.songId
          ∧ (playSong blobs c.songId c.ctx c.playOk st2).2.2 = true := by
  refine ⟨runCalls_rpInv blobs calls st h, ?_⟩
  intro st2 c hok
  cases hfind : st2.meta.songs.find? (fun s => s.id == c.songId) with
  | none =>
      rw [playSong_of_find?_eq_none blobs c.songId c.ctx c.playOk st2 hfind] at hok
      cases hok
  | some song =>
      by_cases hb : song.assetId ∈ blobs
      · cases hOk2 : c.playOk with
        | false =>
            rw [hOk2] at hok
            rw [playSong_of_play_failed blobs c.songId c.ctx st2 song hfind hb] at hok
            cases hok
        | true =>
            rw [playSong_success blobs c.songId c.ctx st2 song hfind hb]
            refine ⟨rfl, ?_, rfl⟩
            rw [List.take_succ_cons, dedupFirst_cons]
            rfl
      · rw [playSong_of_blob_missing blobs c.songId c.ctx c.playOk st2 song hfind hb] at hok
        cases hok

/-- C3 (witness): a concrete run establishing the invariant. -/
theorem recentlyPlayed_invariant_witness :
    rpInv (runCalls ["a0"] rpCexState
      [{ songId := "0", ctx := some ["0"], playOk := true }]).meta.recentlyPlayed :=
  (recentlyPlayed_invariant ["a0"] rpCexState
    [{ songId := "0", ctx := some ["0"], playOk := true }] (by decide)).1

/-- C4: when the requested song id is not in the Song collection,
`playSong` signals the song-missing failure; when the song is found but
its audio asset is absent from the blob store, it signals the
blob-missing failure; in both cases the state is returned exactly
unchanged (queue, index, currentSongId, playing and recentlyPlayed
included) and `saveMeta` is not called. -/
theorem playSong_failure_unchanged (blobs : List String) (songId : String)
    (ctx : Option (List String)) (playOk : Bool) (st : AppState) :
    ((∀ s ∈ st.meta.songs, s.id ≠ songId) →
      playSong blobs songId ctx playOk st = (st, PlayResult.songMissing, false))
    ∧ (∀ song : Song,
        st.meta.songs.find? (fun s => s.id == songId) = some song →
        song.assetId ∉ blobs →
        playSong blobs songId ctx playOk st = (st, PlayResult.blobMissing, false)) := by
  constructor
  · intro hno
    have hfind : st.meta.songs.find? (fun s => s.id == songId) = none := by
      rw [List.find?_eq_none]
      intro s hs hps
      exact hno s hs (by simpa using hps)
    exact playSong_of_find?_eq_none blobs songId ctx playOk st hfind
  · intro song hfind hb
    exact playSong_of_blob_missing blobs songId ctx playOk st song hfind hb

/-- C4 (witness): playing an unknown id against a concrete state leaves
the state unchanged and signals song-missing without saving. -/
theorem playSong_failure_unchanged_witness :
    playSong ["a0"] "zzz" none true rpCexState
      = (rpCexState, PlayResult.songMissing, false) :=
  (playSong_failure_unchanged ["a0"] "zzz" none true rpCexState).1 (by decide)

/-- C5: on a successful `playSong` call that is given a context queue,
the queue is replaced by that context queue and the cursor is recomputed
as the position of the song id within the new queue, defaulting to 0
when the id does not occur in it (the index-0 quirk of the source,
preserved). -/
theorem playSong_queue_replacement (blobs : List String) (songId : String)
    (cq : List String) (st : AppState) (song : Song)
    (hfind : st.meta.songs.find? (fun s => s.id == songId) = some song)
    (hb : song.assetId ∈ blobs) :
    (playSong blobs songId (some cq) true st).1.player.queue = cq
    ∧ (playSong blobs songId (some cq) true st).1.player.index
        = (if songId ∈ cq then cq.indexOf songId else 0) := by
  rw [playSong_success blobs songId (some cq) st song hfind hb]
  exact ⟨rfl, rfl⟩

/-- C5 (witness): playing the stored song with a new two-element queue
replaces the queue and recomputes the cursor to position 1. -/
theorem playSong_queue_replacement_witness :
    (playSong ["a0"] "0" (some ["x", "0"]) true rpCexState).1.player.queue = ["x", "0"]
    ∧ (playSong ["a0"] "0" (some ["x", "0"]) true rpCexState).1.player.index
        = (if "0" ∈ ["x", "0"] then ["x", "0"].indexOf "0" else 0) :=
  playSong_queue_replacement ["a0"] "0" ["x", "0"] rpCexState cexSong
    (by decide) (by decide)

/-- C6: `loginUser` succeeds exactly when some stored user matches both
the supplied username and password by exact string equality (hence
case-sensitively); on success it establishes that stored user as the
in-memory current-session user without touching the metadata; on any
non-exact match it returns the Invalid credentials result and leaves
the whole session state unchanged, establishing no user. -/
theorem loginUser_exact_match (u p : String) (st : AuthState) :
    (∀ user : User, (loginUser u p st).2 = AuthResult.okUser user →
      user ∈ st.meta.users ∧ user.username = u ∧ user.password = p
      ∧ (loginUser u p st).1.currentUser = some user
      ∧ (loginUser u p st).1.meta = st.meta)
    ∧ ((∃ user ∈ st.meta.users, user.username = u ∧ user.password = p) →
        ∃ user : User, (loginUser u p st).2 = AuthResult.okUser user)
    ∧ ((¬ ∃ user ∈ st.meta.users, user.username = u ∧ user.password = p) →
        loginUser u p st = (st, AuthResult.err "Invalid credentials")) := by
  refine ⟨?_, ?_, ?_⟩
  · intro user h
    cases hfind : st.meta.users.find?
        (fun x => x.username == u && x.password == p) with
    | none => unfold loginUser at h; rw [hfind] at h; cases h
    | some x =>
        unfold loginUser at h
        rw [hfind] at h
        have hx : x = user := by cases h; rfl
        subst hx
        have hp := List.find?_some hfind
        simp only [Bool.and_eq_true, beq_iff_eq] at hp
        refine ⟨List.mem_of_find?_eq_some hfind, hp.1, hp.2, ?_, ?_⟩
        · unfold loginUser; rw [hfind]
        · unfold loginUser; rw [hfind]
  · rintro ⟨user, hmem, hu, hp⟩
    have hsome : (st.meta.users.find?
        (fun x => x.username == u && x.password == p)).isSome := by
      rw [List.find?_isSome]
      exact ⟨user, hmem, by simp [hu, hp]⟩
    cases hfind : st.meta.users.find?
        (fun x => x.username == u && x.password == p) with
    | none => rw [hfind] at hsome; cases hsome
    | some x => exact ⟨x, by unfold loginUser; rw [hfind]⟩
  · intro h
    have hfind : st.meta.users.find?
        (fun x => x.username == u && x.password == p) = none := by
      rw [List.find?_eq_none]
      intro x hx hpx
      simp only [Bool.and_eq_true, beq_iff_eq] at hpx
      exact h ⟨x, hx, hpx.1, hpx.2⟩
    unfold loginUser; rw [hfind]

/-- C6 (witness): with only the user Bob registered, logging in as bob
with the right password fails case-sensitively and changes nothing. -/
theorem loginUser_exact_match_witness :
    loginUser "bob" "pw" bobState = (bobState, AuthResult.err "Invalid credentials") :=
  (loginUser_exact_match "bob" "pw" bobState).2.2 (by decide)

/-- C7: `registerUser` with a username already present in the User
collection returns the Username exists failure and leaves the whole
metadata document unchanged, without calling `saveMeta`. -/
theorem registerUser_existing_username (u p d : String) (now : Nat) (m : Meta)
    (h : ∃ x ∈ m.users, x.username = u) :
    registerUser u p d now m = (m, AuthResult.err "Username exists", false) := by
  obtain ⟨x, hx, hxu⟩ := h
  have hsome : (m.users.find? (fun y => y.username == u)).isSome := by
    rw [List.find?_isSome]
    exact ⟨x, hx, by simp [hxu]⟩
  cases hfind : m.users.find? (fun y => y.username == u) with
  | none => rw [hfind] at hsome; cases hsome
  | some y => unfold registerUser; rw [hfind]

/-- C7 (witness): registering Bob a second time fails with Username
exists and leaves the document untouched and unsaved. -/
theorem registerUser_existing_username_witness :
    registerUser "Bob" "secret" "" 5 bobState.meta
      = (bobState.meta, AuthResult.err "Username exists", false) :=
  registerUser_existing_username "Bob" "secret" "" 5 bobState.meta
    ⟨bobUser, by decide, by decide⟩

/-- C8: on an empty queue both `playNext` and `playPrev` are no-ops; on
a queue of length N at least 1, `playNext` advances the cursor to
(index + 1) mod N and `playPrev` retreats it to (index + N - 1) mod N,
each then invoking `playSong` on the song at the new cursor with the
existing queue; in particular from index N - 1 the advanced cursor is 0
and from index 0 the retreated cursor is N - 1. -/
theorem playNext_playPrev_wrap (blobs : List String) (playOk : Bool)
    (st : AppState) :
    (st.player.queue = [] →
      playNext blobs playOk st = (st, PlayResult.noop, false)
      ∧ playPrev blobs playOk st = (st, PlayResult.noop, false))
    ∧ (st.player.queue ≠ [] →
        playNext blobs playOk st
          = playSong blobs
              (st.player.queue.getD
                ((st.player.index + 1) % st.player.queue.length) "")
              (some st.player.queue) playOk
              { st with player := { st.player with
                  index := (st.player.index + 1) % st.player.queue.length } }
        ∧ playPrev blobs playOk st
          = playSong blobs
              (st.player.queue.getD
                ((st.player.index + st.player.queue.length - 1)
                  % st.player.queue.length) "")
              (some st.player.queue) playOk
              { st with player := { st.player with
                  index := (st.player.index + st.player.queue.length - 1)
                    % st.player.queue.length } }
        ∧ (st.player.index = st.player.queue.length - 1 →
            (st.player.index + 1) % st.player.queue.length = 0)
        ∧ (st.player.index = 0 →
            (st.player.index + st.player.queue.length - 1)
              % st.player.queue.length = st.player.queue.length - 1)) := by
  constructor
  · intro hq
    constructor
    · unfold playNext; rw [hq]; rfl
    · unfold playPrev; rw [hq]; rfl
  · intro hq
    have hlen : st.player.queue.length ≠ 0 := by
      simpa [List.length_eq_zero] using hq
    have hpos : 0 < st.player.queue.length := Nat.pos_of_ne_zero hlen
    refine ⟨?_, ?_, ?_, ?_⟩
    · unfold playNext; rw [if_neg hlen]
    · unfold playPrev; rw [if_neg hlen]
    · intro hidx
      rw [hidx, Nat.sub_add_cancel (Nat.one_le_iff_ne_zero.mpr hlen), Nat.mod_self]
    · intro hidx
      rw [hidx, Nat.zero_add, Nat.mod_eq_of_lt (Nat.sub_lt hpos Nat.one_pos)]

/-- C8 (witness): both operations are no-ops on the concrete idle state,
whose queue is empty. -/
theorem playNext_playPrev_wrap_witness :
    playNext ["a0"] true rpCexState = (rpCexState, PlayResult.noop, false)
    ∧ playPrev ["a0"] true rpCexState = (rpCexState, PlayResult.noop, false) :=
  (playNext_playPrev_wrap ["a0"] true rpCexState).1 rfl

theorem followUser_none (target : String) (s : AuthState)
    (hcu : s.currentUser = none) : followUser target s = s := by
  unfold followUser; rw [hcu]

theorem followUser_some (target : String) (s : AuthState) (cu : User)
    (hcu : s.currentUser = some cu) :
    followUser target s =
      { s with meta := { s.meta with
          followers := setEntry s.meta.followers target
            (if cu.username ∈ followersOf s.meta target
              then followersOf s.meta target
              else followersOf s.meta target ++ [cu.username]) } } := by
  unfold followUser; rw [hcu]

theorem unfollowUser_some (target : String) (s : AuthState) (cu : User)
    (hcu : s.currentUser = some cu) :
    unfollowUser target s =
      { s with meta := { s.meta with
          followers := setEntry s.meta.followers target
            ((followersOf s.meta target).erase cu.username) } } := by
  unfold unfollowUser; rw [hcu]

theorem followersOf_setEntry (m : Meta) (fl : List (String × List String))
    (target : String) (v : List String) :
    followersOf { m with followers := setEntry fl target v } target = v := by
  unfold followersOf
  have h : lookupEntry { m with followers := setEntry fl target v }.followers target
      = some v := lookupEntry_setEntry_self fl target v
  rw [h]
  rfl

/-- C9: calling `followUser` twice in a row yields exactly the same
session state as calling it once (so in particular the same follower
set for the target), and `unfollowUser` when the signed-in user is not
in the follower set of the target leaves that follower set unchanged. -/
theorem follow_idempotent_unfollow_noop (target : String) (st : AuthState) :
    followUser target (followUser target st) = followUser target st
    ∧ ∀ cu : User, st.currentUser = some cu →
        cu.username ∉ followersOf st.meta target →
        followersOf (unfollowUser target st).meta target
          = followersOf st.meta target := by
  constructor
  · cases hcu : st.currentUser with
    | none =>
        have h0 := followUser_none target st hcu
        rw [h0]
        exact h0
    | some cu =>
        have h1 := followUser_some target st cu hcu
        have hcu1 : (followUser target st).currentUser = some cu := by
          rw [h1]; exact hcu
        have h2 := followUser_some target (followUser target st) cu hcu1
        rw [h2]
        set A := followersOf st.meta target with hA
        set arr2 := if cu.username ∈ A then A else A ++ [cu.username] with harr2
        have hmem : cu.username ∈ arr2 := by
          rw [harr2]
          by_cases hm : cu.username ∈ A
          · rw [if_pos hm]; exact hm
          · rw [if_neg hm]; exact List.mem_append_right _ (List.mem_singleton_self _)
        have hlook : followersOf (followUser target st).meta target = arr2 := by
          rw [h1]; exact followersOf_setEntry st.meta st.meta.followers target arr2
        rw [hlook, if_pos hmem]
        conv_rhs => rw [h1]
        rw [h1]
        simp only [setEntry_setEntry_self]
  · intro cu hcu hnot
    rw [unfollowUser_some target st cu hcu,
      followersOf_setEntry st.meta st.meta.followers target _,
      List.erase_of_not_mem hnot]

/-- C9 (witness): Bob unfollowing a user nobody follows leaves that
follower set unchanged. -/
theorem follow_idempotent_unfollow_noop_witness :
    followersOf (unfollowUser "alice" followState).meta "alice"
      = followersOf followState.meta "alice" :=
  (follow_idempotent_unfollow_noop "alice" followState).2 bobUser rfl (by decide)

/-- C10 (counterexample): on a metadata state that already contains a
RankRates user that is neither verified nor a super admin,
`ensureSuperAdmin` does nothing, so afterwards no RankRates user with
the super-admin and verified flags set exists — the claimed invariant
fails on that state. -/
theorem ensureSuperAdmin_existing_cex :
    ¬ ∃ u ∈ (ensureSuperAdmin 0 fakeMeta).1.users,
        u.username = "RankRates" ∧ u.superAdmin = true ∧ u.verified = true := by
  decide

theorem ensureSuperAdmin_of_found (now : Nat) (m : Meta) (u : User)
    (h : m.users.find? (fun x => x.username == "RankRates") = some u) :
    ensureSuperAdmin now m = (m, false) := by
  unfold ensureSuperAdmin; rw [h]

/-- C10 (amended): `ensureSuperAdmin` is idempotent — running it a
second time changes nothing and in particular never creates a duplicate
or modifies an existing user; after it runs, at least one user named
RankRates exists; and when the starting state contains no RankRates
user, afterwards exactly one RankRates user exists and it has the
super-admin and verified flags set. -/
theorem ensureSuperAdmin_bootstrap (now : Nat) (m : Meta) :
    (ensureSuperAdmin now (ensureSuperAdmin now m).1).1 = (ensureSuperAdmin now m).1
    ∧ (∃ u ∈ (ensureSuperAdmin now m).1.users, u.username = "RankRates")
    ∧ ((∀ u ∈ m.users, u.username ≠ "RankRates") →
        (ensureSuperAdmin now m).1.users.filter (fun u => u.username == "RankRates")
          = [superAdminUser m.nextIds.user now]
        ∧ (superAdminUser m.nextIds.user now).superAdmin = true
        ∧ (superAdminUser m.nextIds.user now).verified = true) := by
  cases hfind : m.users.find? (fun u => u.username == "RankRates") with
  | some u =>
      have h1 : ensureSuperAdmin now m = (m, false) := by
        unfold ensureSuperAdmin; rw [hfind]
      refine ⟨?_, ?_, ?_⟩
      · rw [h1, h1]
      · rw [h1]
        exact ⟨u, List.mem_of_find?_eq_some hfind,
          by simpa using List.find?_some hfind⟩
      · intro hno
        have := List.find?_some hfind
        simp only [beq_iff_eq] at this
        exact absurd this (hno u (List.mem_of_find?_eq_some hfind))
  | none =>
      have h1 : ensureSuperAdmin now m =
          ({ m with users := m.users ++ [superAdminUser m.nextIds.user now]
                    nextIds := { m.nextIds with user := m.nextIds.user + 1 } },
           true) := by
        unfold ensureSuperAdmin; rw [hfind]
      have hfind2 : ((ensureSuperAdmin now m).1.users.find?
          (fun u => u.username == "RankRates"))
            = some (superAdminUser m.nextIds.user now) := by
        rw [h1]
        simp only [List.find?_append, hfind, Option.none_or]
        rfl
      refine ⟨?_, ?_, ?_⟩
      · rw [ensureSuperAdmin_of_found now (ensureSuperAdmin now m).1
          (superAdminUser m.nextIds.user now) hfind2]
      · exact ⟨superAdminUser m.nextIds.user now,
          List.mem_of_find?_eq_some hfind2, rfl⟩
      · intro hno
        refine ⟨?_, rfl, rfl⟩
        rw [h1]
        simp only [List.filter_append]
        have hnil : m.users.filter (fun u => u.username == "RankRates") = [] := by
          rw [List.filter_eq_nil_iff]
          intro u hu
          simpa using hno u hu
        rw [hnil]
        rfl

/-- C10 (witness): on the empty document the bootstrap creates exactly
one RankRates user, with the super-admin and verified flags set. -/
theorem ensureSuperAdmin_bootstrap_witness :
    (ensureSuperAdmin 0 emptyMeta).1.users.filter (fun u => u.username == "RankRates")
      = [superAdminUser emptyMeta.nextIds.user 0]
    ∧ (superAdminUser emptyMeta.nextIds.user 0).superAdmin = true
    ∧ (superAdminUser emptyMeta.nextIds.user 0).verified = true :=
  (ensureSuperAdmin_bootstrap 0 emptyMeta).2.2 (by decide)
